import Mathlib

/-!
Verification development for the UV exposure box controller firmware
(`uvexposurebox.cpp`).  The firmware is shallowly embedded: each C routine
becomes a pure Lean function over explicit state, machine integers become
`Nat` with explicit `% 2^w` where overflow matters, and every `millis()`
or pin read becomes an input supplied by the environment.  The polling
loops consume a finite list of per-cycle inputs `(now, pina)` where `now`
is the value returned by `millis()` on that cycle and `pina` is the raw
level of port A (active-low buttons on bits 0 and 1); a loop that has not
yet exited when the input list runs out is modelled by `Option.none`.
-/

namespace UVBox

set_option maxRecDepth 400000

/-- Wraparound subtraction of two `uint32` values, as computed by C. -/
def sub32 (a b : Nat) : Nat := (a + 2 ^ 32 - b % 2 ^ 32) % 2 ^ 32

def SEG_A : Nat := 2
def SEG_B : Nat := 8
def SEG_C : Nat := 1
def SEG_D : Nat := 32
def SEG_E : Nat := 128
def SEG_F : Nat := 16
def SEG_G : Nat := 4
def SEG_DOTS : Nat := 64

def BUTTON_START : Nat := 1
def BUTTON_MODE : Nat := 2

/-- Segment lookup table for digits 0 to 9 (active-low segment patterns). -/
def segdata : List Nat :=
  [ (SEG_A ||| SEG_B ||| SEG_C ||| SEG_D ||| SEG_E ||| SEG_F) ^^^ 191,
    (SEG_B ||| SEG_C) ^^^ 191,
    (SEG_A ||| SEG_B ||| SEG_D ||| SEG_E ||| SEG_G) ^^^ 191,
    (SEG_A ||| SEG_B ||| SEG_C ||| SEG_D ||| SEG_G) ^^^ 191,
    (SEG_B ||| SEG_C ||| SEG_F ||| SEG_G) ^^^ 191,
    (SEG_A ||| SEG_C ||| SEG_D ||| SEG_F ||| SEG_G) ^^^ 191,
    (SEG_A ||| SEG_C ||| SEG_D ||| SEG_E ||| SEG_F ||| SEG_G) ^^^ 191,
    (SEG_A ||| SEG_B ||| SEG_C) ^^^ 191,
    (SEG_A ||| SEG_B ||| SEG_C ||| SEG_D ||| SEG_E ||| SEG_F ||| SEG_G) ^^^ 191,
    (SEG_A ||| SEG_B ||| SEG_C ||| SEG_D ||| SEG_F ||| SEG_G) ^^^ 191 ]

/-- The button-input globals of the firmware: debounced state, previous
debounced state, the derived edge sets and the time of the last accepted
sample. -/
structure Buttons where
  buttonState : Nat
  prevButtonState : Nat
  buttonPressed : Nat
  buttonReleased : Nat
  lastButtonReadTime : Nat
  deriving DecidableEq, Repr

/-- One call of `updateButtons`.  The two `millis()` reads of the C body
happen within the same polling cycle and are modelled as the single
sample `now`.  A raw sample is accepted only when at least 5 ms have
passed since the last accepted sample; the edge sets are recomputed on
every call from the debounced state. -/
def updateButtons (b : Buttons) (now pina : Nat) : Buttons :=
  let bs := if sub32 now b.lastButtonReadTime ≥ 5 then (pina &&& 3) ^^^ 3 else b.buttonState
  { buttonState := bs
    prevButtonState := bs
    buttonPressed := bs &&& (b.prevButtonState ^^^ 255)
    buttonReleased := (bs ^^^ 255) &&& b.prevButtonState
    lastButtonReadTime := if sub32 now b.lastButtonReadTime ≥ 5 then now else b.lastButtonReadTime }

/-- Display-driver state: the multiplexing digit cursor (the `static int
digit` of `updateDisplay`) and the segment port B. -/
structure Disp where
  digit : Nat
  portB : Nat
  deriving DecidableEq, Repr

/-- The digit value selected for rendering by `updateDisplay` for a given
time and cursor position. -/
def displayedDigitValue (time digit : Nat) : Nat :=
  let mins := time / 60 % 10
  let secs := time % 60
  let secs1 := secs / 10
  let secs2 := secs % 10
  if digit = 0 then mins else if digit = 1 then secs1 else secs2

/-- One call of `updateDisplay`.  Advances the digit cursor, clears the
three digit-enable bits of port D, writes the segment pattern together
with the dot bit to port B, and re-enables the cursor digit gated by
`enableDigits`. -/
def updateDisplay (d : Disp) (portD : Nat) (time dots enableDigits : Nat) : Disp × Nat :=
  let digit := d.digit + 1
  let digit := if digit = 3 then 0 else digit
  let t := displayedDigitValue time digit
  let portD1 := portD &&& 248
  let portB := segdata.getD t 0 ||| (dots &&& SEG_DOTS)
  let portD2 := portD1 ||| ((1 <<< digit) &&& enableDigits)
  (⟨digit, portB⟩, portD2)

/-- Non-volatile storage: the single 16-bit word at address 0. -/
structure Eeprom where
  word0 : Nat
  deriving DecidableEq, Repr

/-- The `readConfig` routine: reads the stored word and substitutes 30
when the value is 600 or more.  The storage itself is returned
unchanged: the routine performs no write. -/
def readConfig (e : Eeprom) : Nat × Eeprom :=
  let exposureTime := e.word0 % 65536
  (if exposureTime ≥ 600 then 30 else exposureTime, e)

/-- The `writeConfig` routine: stores the current exposure time as a
16-bit word at address 0. -/
def writeConfig (e : Eeprom) (exposureTime : Nat) : Eeprom :=
  { word0 := exposureTime % 65536 }

/-- The `waitUntilButtonsReleased` drain loop: polls buttons and blanks
the display until the debounced state reads both buttons released.
Returns the final globals and the unconsumed inputs, or `none` when the
input list is exhausted before the buttons read released. -/
def waitUntilButtonsReleased (b : Buttons) (d : Disp) (portD : Nat) :
    List (Nat × Nat) → Option (Buttons × Disp × Nat × List (Nat × Nat))
  | [] => none
  | inp :: rest =>
    let b' := updateButtons b inp.1 inp.2
    let dp := updateDisplay d portD 0 0 0
    if b'.buttonState = 0 then some (b', dp.1, dp.2, rest)
    else waitUntilButtonsReleased b' dp.1 dp.2 rest

/-- The elapsed whole seconds computed by one exposure cycle:
`(uint16)((millis() - startTime) / 1000)`. -/
def elapsedAt (startTime now : Nat) : Nat := sub32 now startTime / 1000 % 65536

/-- The remaining time computed by one exposure cycle: the `uint16`
difference `exposureTime - elapsedTime`, overridden to 0 once the elapsed
time has reached the configured duration. -/
def remainingAt (exposureTime startTime now : Nat) : Nat :=
  let e := elapsedAt startTime now
  if e ≥ exposureTime then 0 else (exposureTime + 65536 - e) % 65536

/-- Asserting the UV output channels on exposure entry:
`PORTD |= (mode+1) << 5` (an 8-bit register write). -/
def turnOnMosfets (mode portD : Nat) : Nat := portD ||| (((mode + 1) <<< 5) % 256)

/-- Deasserting both UV output channels: `PORTD &= ~(32+64)` on the 8-bit
register, that is masking with 159. -/
def turnOffMosfets (portD : Nat) : Nat := portD &&& 159

/-- Exit conditions of the exposure loop: countdown finished with Start
held, or early-cancel by a long Start hold. -/
inductive ExpExit where
  | finished
  | cancelled
  deriving DecidableEq, Repr

/-- State carried across iterations of the exposure loop. -/
structure ExpState where
  portD : Nat
  blink : Nat
  startButtonDownTime : Nat
  buttons : Buttons
  disp : Disp
  deriving DecidableEq, Repr

/-- One iteration of the exposure `while(true)` loop: compute the
remaining time, poll buttons, refresh the display (dot and digit enables
driven by the blink counter), then handle the finished branch (advance
blink, deassert outputs, exit if Start is held) and the early-cancel
hold counter. -/
def exposureStep (exposureTime startTime : Nat) (s : ExpState) (inp : Nat × Nat) :
    ExpState × Option ExpExit :=
  let time := remainingAt exposureTime startTime inp.1
  let buttons := updateButtons s.buttons inp.1 inp.2
  let dp := updateDisplay s.disp s.portD time (if s.blink < 512 then 255 else 0)
    (if s.blink < 512 then 255 else 0)
  if time = 0 then
    let blink := (s.blink + 2) &&& 1023
    let portD := turnOffMosfets dp.2
    if buttons.buttonState &&& BUTTON_START ≠ 0 then
      (⟨portD, blink, s.startButtonDownTime, buttons, dp.1⟩, some ExpExit.finished)
    else
      (⟨portD, blink, 0, buttons, dp.1⟩, none)
  else
    let sbdt := if buttons.buttonState &&& BUTTON_START ≠ 0 then
      (s.startButtonDownTime + 1) % 65536 else 0
    (⟨dp.2, s.blink, sbdt, buttons, dp.1⟩, if sbdt = 500 then some ExpExit.cancelled else none)

/-- Runs the exposure loop until one of its two exit conditions fires.
Returns the state at exit, the exit condition and the unconsumed inputs,
or `none` when the input list runs out first. -/
def exposureLoop (exposureTime startTime : Nat) :
    ExpState → List (Nat × Nat) → Option (ExpState × ExpExit × List (Nat × Nat))
  | _, [] => none
  | s, inp :: rest =>
    match exposureStep exposureTime startTime s inp with
    | (s', some e) => some (s', e, rest)
    | (s', none) => exposureLoop exposureTime startTime s' rest

/-- The list of states after each executed iteration of the exposure
loop, ending with the exit iteration when an exit fires. -/
def exposureLoopStates (exposureTime startTime : Nat) :
    ExpState → List (Nat × Nat) → List ExpState
  | _, [] => []
  | s, inp :: rest =>
    match exposureStep exposureTime startTime s inp with
    | (s', some _) => [s']
    | (s', none) => s' :: exposureLoopStates exposureTime startTime s' rest

/-- The full `exposure` routine: drain buttons, record the entry
timestamp (`startTime` is the value read from `millis()` after the
drain), assert the output channels selected by `mode`, run the countdown
loop, deassert the outputs once more after the loop, and drain buttons
again.  Returns the final button, display and port D state. -/
def exposure (mode exposureTime : Nat) (b : Buttons) (d : Disp) (portD : Nat)
    (inputs : List (Nat × Nat)) (startTime : Nat) : Option (Buttons × Disp × Nat) :=
  match waitUntilButtonsReleased b d portD inputs with
  | none => none
  | some (b1, d1, pD1, rest1) =>
    let s0 : ExpState := ⟨turnOnMosfets mode pD1, 0, 0, b1, d1⟩
    match exposureLoop exposureTime startTime s0 rest1 with
    | none => none
    | some (s1, _, rest2) =>
      match waitUntilButtonsReleased s1.buttons s1.disp (turnOffMosfets s1.portD) rest2 with
      | none => none
      | some (b2, d2, pD2, _) => some (b2, d2, pD2)

/-- The minutes-edit loop of `timeSetup`.  The loop condition is checked
against the edge set computed by the previous poll, so the check precedes
the consumption of the next input.  Each iteration re-derives the global
`exposureTime`, refreshes the display with the minutes digit gated by the
blink counter, and a Start press edge advances minutes cyclically,
resetting the blink phase.  Returns the final global `exposureTime`, the
edited minutes, the button, display and port state and the unconsumed
inputs. -/
def editMinutes (mins blink exposureTime : Nat) (b : Buttons) (d : Disp) (portD : Nat) :
    List (Nat × Nat) → Option (Nat × Nat × Buttons × Disp × Nat × List (Nat × Nat))
  | [] =>
    if b.buttonPressed &&& BUTTON_MODE ≠ 0 then some (exposureTime, mins, b, d, portD, [])
    else none
  | inp :: rest =>
    if b.buttonPressed &&& BUTTON_MODE ≠ 0 then some (exposureTime, mins, b, d, portD, inp :: rest)
    else
      let b' := updateButtons b inp.1 inp.2
      let eT := mins * 60 % 65536
      let dp := updateDisplay d portD eT 255 (if blink < 512 then 1 else 0)
      let ms := if b'.buttonPressed &&& BUTTON_START ≠ 0 then ((mins + 1) % 10, 0)
        else (mins, blink)
      editMinutes ms.1 ((ms.2 + 2) &&& 1023) eT b' dp.1 dp.2 rest

/-- The seconds-edit loop of `timeSetup`, symmetric to the minutes loop:
`exposureTime` is re-derived as `mins * 60 + secs` at the start of each
iteration (before a Start press edge advances `secs` by 5 modulo 60), and
a Mode press edge exits the loop. -/
def editSeconds (mins secs blink exposureTime : Nat) (b : Buttons) (d : Disp) (portD : Nat) :
    List (Nat × Nat) → Option (Nat × Nat × Buttons × Disp × Nat × List (Nat × Nat))
  | [] =>
    if b.buttonPressed &&& BUTTON_MODE ≠ 0 then some (exposureTime, secs, b, d, portD, [])
    else none
  | inp :: rest =>
    if b.buttonPressed &&& BUTTON_MODE ≠ 0 then some (exposureTime, secs, b, d, portD, inp :: rest)
    else
      let b' := updateButtons b inp.1 inp.2
      let eT := (mins * 60 + secs) % 65536
      let dp := updateDisplay d portD eT 255 (if blink < 512 then 7 else 1)
      let sc := if b'.buttonPressed &&& BUTTON_START ≠ 0 then ((secs + 5) % 60, 0)
        else (secs, blink)
      editSeconds mins sc.1 ((sc.2 + 2) &&& 1023) eT b' dp.1 dp.2 rest

/-- The full `timeSetup` routine: split the current duration into minutes
and seconds, run the two edit loops (the press-edge memory is cleared and
the blink phase restarted between them), persist the resulting duration
and drain the buttons.  Returns the persisted duration and the final
state. -/
def timeSetup (exposureTime : Nat) (b : Buttons) (d : Disp) (portD : Nat) (e : Eeprom)
    (inputs : List (Nat × Nat)) :
    Option (Nat × Buttons × Disp × Nat × Eeprom × List (Nat × Nat)) :=
  let mins := exposureTime / 60 % 256
  let secs := (exposureTime - mins * 60) % 256
  match editMinutes mins 512 exposureTime b d portD inputs with
  | none => none
  | some (eT1, mins1, b1, d1, pD1, rest1) =>
    match editSeconds mins1 secs 0 eT1 { b1 with buttonPressed := 0 } d1 pD1 rest1 with
    | none => none
    | some (eT2, secs2, b2, d2, pD2, rest2) =>
      let e' := writeConfig e eT2
      match waitUntilButtonsReleased b2 d2 pD2 rest2 with
      | none => none
      | some (b3, d3, pD3, rest3) => some (eT2, b3, d3, pD3, e', rest3)

/-- The chain of button-global states produced by successive
`updateButtons` calls on a list of per-cycle inputs. -/
def buttonsChain (b : Buttons) : List (Nat × Nat) → List Buttons
  | [] => []
  | inp :: rest =>
    let b' := updateButtons b inp.1 inp.2
    b' :: buttonsChain b' rest

/-- Per-cycle record of whether the debounced Start button reads held. -/
def heldTrace (b : Buttons) (inputs : List (Nat × Nat)) : List Bool :=
  (buttonsChain b inputs).map (fun x => decide (x.buttonState &&& BUTTON_START ≠ 0))

/-- Per-cycle record of whether a Start press edge fired. -/
def pressTrace (b : Buttons) (inputs : List (Nat × Nat)) : List Bool :=
  (buttonsChain b inputs).map (fun x => decide (x.buttonPressed &&& BUTTON_START ≠ 0))

/-- The value of a consecutive-hold counter after a trace of per-cycle
hold observations: each held cycle increments it, any other cycle resets
it to 0. -/
def streakFrom (n : Nat) (l : List Bool) : Nat :=
  l.foldl (fun a h => if h then a + 1 else 0) n

/-- Monotone timestamps: every `now` in the input list is at least the
given lower bound, below `2^32`, and the list is non-decreasing. -/
def timesMono (t : Nat) : List (Nat × Nat) → Prop
  | [] => True
  | inp :: rest => t ≤ inp.1 ∧ inp.1 < 2 ^ 32 ∧ timesMono inp.1 rest

/-- The button globals after the poll call of index `i` (0-based) in a
run of `updateButtons` over the given inputs. -/
def chainAt (b : Buttons) (inputs : List (Nat × Nat)) (i : Nat) : Buttons :=
  (buttonsChain b inputs).getD i b

/-- The debounced state seen before the poll call of index `i`. -/
def chainPrevState (b : Buttons) (inputs : List (Nat × Nat)) (i : Nat) : Nat :=
  if i = 0 then b.buttonState else (chainAt b inputs (i - 1)).buttonState

/-- The debounced state changed at the poll call of index `i`. -/
def chainChanged (b : Buttons) (inputs : List (Nat × Nat)) (i : Nat) : Prop :=
  (chainAt b inputs i).buttonState ≠ chainPrevState b inputs i

instance (b : Buttons) (inputs : List (Nat × Nat)) (i : Nat) :
    Decidable (chainChanged b inputs i) :=
  inferInstanceAs (Decidable (_ ≠ _))

theorem sub32_eq {a b : Nat} (hb : b ≤ a) (ha : a < 2 ^ 32) : sub32 a b = a - b := by
  unfold sub32; omega

theorem remainingAt_eq {eT sT now : Nat} (h16 : eT < 65536) (hst : sT ≤ now)
    (hup : now < 2 ^ 32) (hb : now - sT < 65536000) :
    remainingAt eT sT now = eT - (now - sT) / 1000 := by
  simp only [remainingAt, elapsedAt]
  rw [sub32_eq hst hup]
  split <;> omega

/-- Claim C2: each exposure cycle computes the remaining time as the
truncated difference of the configured duration and the elapsed whole
seconds (which in `Nat` is exactly `max (duration - elapsed) 0`); the
remaining value is non-increasing in the current time and is 0 exactly
once the elapsed seconds reach the duration; at duration 125 entered at
time 0 the remaining value is 60 at 65000 ms and 0 at 125000 ms. -/
theorem claim2_remaining_formula {eT sT now now' : Nat} (h16 : eT < 65536)
    (hst : sT ≤ now) (hmono : now ≤ now') (hup' : now' < 2 ^ 32)
    (hb' : now' - sT < 65536000) :
    remainingAt eT sT now = eT - (now - sT) / 1000
      ∧ remainingAt eT sT now' ≤ remainingAt eT sT now
      ∧ (eT ≤ (now - sT) / 1000 → remainingAt eT sT now = 0)
      ∧ remainingAt 125 0 65000 = 60 ∧ remainingAt 125 0 125000 = 0 := by
  have hup : now < 2 ^ 32 := lt_of_le_of_lt hmono hup'
  have hb : now - sT < 65536000 := lt_of_le_of_lt (by omega) hb'
  have e1 := remainingAt_eq h16 hst hup hb
  have e2 := remainingAt_eq h16 (le_trans hst hmono) hup' hb'
  refine ⟨e1, ?_, ?_, by decide, by decide⟩
  · rw [e1, e2]; omega
  · rw [e1]; omega

theorem claim2_witness :
    remainingAt 125 0 65000 = 125 - (65000 - 0) / 1000
      ∧ remainingAt 125 0 125000 ≤ remainingAt 125 0 65000
      ∧ (125 ≤ (65000 - 0) / 1000 → remainingAt 125 0 65000 = 0)
      ∧ remainingAt 125 0 65000 = 60 ∧ remainingAt 125 0 125000 = 0 :=
  claim2_remaining_formula (by decide) (by decide) (by decide) (by decide) (by decide)

/-- Claim C4: loading the configuration returns a stored 16-bit value
unchanged when it lies in the valid range 0 to 599, substitutes the
default 30 when it is out of range, and performs no write to the
non-volatile storage in either case. -/
theorem claim4_readConfig (v : Nat) (hv : v < 65536) :
    (v ≤ 599 → (readConfig ⟨v⟩).1 = v)
      ∧ (600 ≤ v → (readConfig ⟨v⟩).1 = 30)
      ∧ (readConfig ⟨v⟩).2 = ⟨v⟩ := by
  simp only [readConfig, Nat.mod_eq_of_lt hv]
  refine ⟨fun h => ?_, fun h => ?_, trivial⟩
  · rw [if_neg (by omega)]
  · rw [if_pos (by omega)]

theorem claim4_witness :
    ((700 : Nat) ≤ 599 → (readConfig ⟨700⟩).1 = 700)
      ∧ (600 ≤ (700 : Nat) → (readConfig ⟨700⟩).1 = 30)
      ∧ (readConfig ⟨700⟩).2 = ⟨700⟩ :=
  claim4_readConfig 700 (by decide)

/-- Claim C10: the digit value selected for rendering is below the
length of the segment lookup table for every time value and every cursor
position, and the three rendered digit positions are bounded by 9, 5 and
9 respectively, so the table access of the display refresh is always in
bounds. -/
theorem claim10_digit_in_bounds (time digit : Nat) :
    displayedDigitValue time digit < segdata.length
      ∧ time / 60 % 10 ≤ 9 ∧ time % 60 / 10 ≤ 5 ∧ time % 60 % 10 ≤ 9 := by
  have hlen : segdata.length = 10 := rfl
  rw [hlen]
  refine ⟨?_, by omega, by omega, by omega⟩
  simp only [displayedDigitValue]
  split
  · omega
  · split <;> omega

/-- Claim C8 counterexample: calling the display refresh with the
non-sentinel dots value 64 nevertheless asserts the decimal-dot line,
refuting the claim that the dot line is asserted only for the sentinel
value 0xff. -/
theorem claim8_counterexample :
    (updateDisplay ⟨0, 0⟩ 0 0 64 255).1.portB &&& SEG_DOTS ≠ 0 ∧ (64 : Nat) ≠ 255 := by
  decide

/-- Claim C8, amended: the decimal-dot line of the refreshed segment
port equals bit 6 of the `dots` argument, so it is asserted exactly when
bit 6 (`SEG_DOTS`) of `dots` is set; in particular the value 0xff
asserts it and the value 0 blanks it. -/
theorem claim8_dot_line (d : Disp) (portD time dots en : Nat) :
    (updateDisplay d portD time dots en).1.portB &&& SEG_DOTS = dots &&& SEG_DOTS
      ∧ (updateDisplay d portD time 255 en).1.portB &&& SEG_DOTS ≠ 0
      ∧ (updateDisplay d portD time 0 en).1.portB &&& SEG_DOTS = 0 := by
  have hseg : ∀ t : Nat, segdata.getD t 0 &&& SEG_DOTS = 0 := by
    intro t
    rcases Nat.lt_or_ge t 10 with h | h
    · interval_cases t <;> decide
    · rw [List.getD_eq_default _ _ (by simpa using h)]; decide
  have key : ∀ dts : Nat,
      (updateDisplay d portD time dts en).1.portB &&& SEG_DOTS = dts &&& SEG_DOTS := by
    intro dts
    show (segdata.getD _ 0 ||| (dts &&& SEG_DOTS)) &&& SEG_DOTS = dts &&& SEG_DOTS
    apply Nat.eq_of_testBit_eq
    intro i
    have h0 := congrArg (fun x => x.testBit i) (hseg (displayedDigitValue time
      (if d.digit + 1 = 3 then 0 else d.digit + 1)))
    simp only [Nat.testBit_and, Nat.testBit_or, Nat.zero_testBit] at h0 ⊢
    cases hb : Nat.testBit (segdata.getD (displayedDigitValue time
        (if d.digit + 1 = 3 then 0 else d.digit + 1)) 0) i <;>
      cases hd : Nat.testBit (SEG_DOTS) i <;> simp_all
  refine ⟨key dots, ?_, by rw [key]; decide⟩
  rw [key]
  decide

theorem updateButtons_prev_eq (b : Buttons) (now pina : Nat) :
    (updateButtons b now pina).prevButtonState = (updateButtons b now pina).buttonState := rfl

theorem updateButtons_pressed_eq (b : Buttons) (now pina : Nat) :
    (updateButtons b now pina).buttonPressed
      = (updateButtons b now pina).buttonState &&& (b.prevButtonState ^^^ 255) := rfl

theorem updateButtons_released_eq (b : Buttons) (now pina : Nat) :
    (updateButtons b now pina).buttonReleased
      = ((updateButtons b now pina).buttonState ^^^ 255) &&& b.prevButtonState := rfl

theorem updateButtons_state_lt (b : Buttons) (now pina : Nat) (h : b.buttonState < 4) :
    (updateButtons b now pina).buttonState < 4 := by
  show (if sub32 now b.lastButtonReadTime ≥ 5 then (pina &&& 3) ^^^ 3 else b.buttonState) < 4
  split
  · have h1 : pina &&& 3 < 2 ^ 2 := lt_of_le_of_lt Nat.and_le_right (by norm_num)
    have h2 := Nat.xor_lt_two_pow h1 (show (3 : Nat) < 2 ^ 2 by norm_num)
    simpa using h2
  · exact h

theorem updateButtons_last_cases (b : Buttons) (now pina : Nat) :
    (updateButtons b now pina).lastButtonReadTime = now
      ∨ (updateButtons b now pina).lastButtonReadTime = b.lastButtonReadTime := by
  show (if sub32 now b.lastButtonReadTime ≥ 5 then now else b.lastButtonReadTime) = now
    ∨ (if sub32 now b.lastButtonReadTime ≥ 5 then now else b.lastButtonReadTime)
      = b.lastButtonReadTime
  split
  · exact Or.inl rfl
  · exact Or.inr rfl

theorem updateButtons_change_sample (b : Buttons) (now pina : Nat)
    (h : (updateButtons b now pina).buttonState ≠ b.buttonState) :
    sub32 now b.lastButtonReadTime ≥ 5
      ∧ (updateButtons b now pina).lastButtonReadTime = now := by
  by_cases hs : sub32 now b.lastButtonReadTime ≥ 5
  · refine ⟨hs, ?_⟩
    show (if sub32 now b.lastButtonReadTime ≥ 5 then now else b.lastButtonReadTime) = now
    rw [if_pos hs]
  · exfalso
    apply h
    show (if sub32 now b.lastButtonReadTime ≥ 5 then (pina &&& 3) ^^^ 3 else b.buttonState)
      = b.buttonState
    rw [if_neg hs]

/-- Claim C9 counterexample: draining from a state where Start was held
and is released at the first qualifying sample returns with the released
edge set still non-zero, refuting the claim that both edge sets are zero
whenever the drain routine returns. -/
theorem claim9_counterexample :
    (waitUntilButtonsReleased ⟨1, 1, 0, 0, 0⟩ ⟨0, 0⟩ 0 [(5, 3)]).map
      (fun r => r.1.buttonReleased) = some 1 ∧ (1 : Nat) ≠ 0 := by
  decide

/-- Claim C9, amended: whenever the button-drain routine returns, the
debounced state reads both buttons released, the previous-state memory
agrees, and the pressed edge set is zero; the released edge set, however,
may still hold the release edge observed on the final sample. -/
theorem claim9_drain_post :
    ∀ (inputs : List (Nat × Nat)) (b : Buttons) (d : Disp) (pD : Nat)
      (b' : Buttons) (d' : Disp) (pD' : Nat) (rest : List (Nat × Nat)),
      waitUntilButtonsReleased b d pD inputs = some (b', d', pD', rest) →
      b'.buttonState = 0 ∧ b'.prevButtonState = 0 ∧ b'.buttonPressed = 0
  | [], b, d, pD => by
    intro b' d' pD' rest h
    simp [waitUntilButtonsReleased] at h
  | inp :: tl, b, d, pD => by
    intro b' d' pD' rest h
    simp only [waitUntilButtonsReleased] at h
    split at h
    · rename_i h0
      simp only [Option.some.injEq, Prod.mk.injEq] at h
      obtain ⟨hb, -, -, -⟩ := h
      subst hb
      refine ⟨h0, ?_, ?_⟩
      · rw [updateButtons_prev_eq, h0]
      · rw [updateButtons_pressed_eq, h0, Nat.zero_and]
    · exact claim9_drain_post tl _ _ _ b' d' pD' rest h

theorem claim9_witness :
    (⟨0, 0, 0, 0, 0⟩ : Buttons).buttonState = 0
      ∧ (⟨0, 0, 0, 0, 0⟩ : Buttons).prevButtonState = 0
      ∧ (⟨0, 0, 0, 0, 0⟩ : Buttons).buttonPressed = 0 :=
  claim9_drain_post [(0, 3)] ⟨0, 0, 0, 0, 0⟩ ⟨0, 0⟩ 0 ⟨0, 0, 0, 0, 0⟩ ⟨1, 4⟩ 0 []
    (by decide)

theorem edge_mutex {bs p : Nat} (h1 : bs < 4) (h2 : p < 4) :
    (bs &&& (p ^^^ 255)) &&& ((bs ^^^ 255) &&& p) = 0 := by
  interval_cases bs <;> interval_cases p <;> decide

theorem edge_iff_ne {bs p : Nat} (h1 : bs < 4) (h2 : p < 4) :
    (bs &&& (p ^^^ 255) ≠ 0 ∨ (bs ^^^ 255) &&& p ≠ 0) ↔ bs ≠ p := by
  interval_cases bs <;> interval_cases p <;> decide

theorem buttonsChain_length : ∀ (inputs : List (Nat × Nat)) (b : Buttons),
    (buttonsChain b inputs).length = inputs.length
  | [], _ => rfl
  | inp :: rest, b => by
    simp only [buttonsChain, List.length_cons]
    rw [buttonsChain_length rest]

theorem getD_irrel {α : Type} (l : List α) (i : Nat) (d1 d2 : α) (h : i < l.length) :
    l.getD i d1 = l.getD i d2 := by
  simp [List.getD_eq_getElem?_getD, List.getElem?_eq_getElem h]

theorem chainAt_zero (b : Buttons) (inp : Nat × Nat) (rest : List (Nat × Nat)) :
    chainAt b (inp :: rest) 0 = updateButtons b inp.1 inp.2 := rfl

theorem chainAt_succ (b : Buttons) (inp : Nat × Nat) (rest : List (Nat × Nat)) (i : Nat)
    (h : i < rest.length) :
    chainAt b (inp :: rest) (i + 1) = chainAt (updateButtons b inp.1 inp.2) rest i := by
  simp only [chainAt, buttonsChain, List.getD_cons_succ]
  exact getD_irrel _ i b (updateButtons b inp.1 inp.2) (by rw [buttonsChain_length]; exact h)

theorem chainChanged_succ (b : Buttons) (inp : Nat × Nat) (rest : List (Nat × Nat)) (i : Nat)
    (h : i < rest.length) :
    chainChanged b (inp :: rest) (i + 1) ↔ chainChanged (updateButtons b inp.1 inp.2) rest i := by
  unfold chainChanged chainPrevState
  rw [chainAt_succ b inp rest i h]
  rcases Nat.eq_zero_or_pos i with hi | hi
  · subst hi
    simp [chainAt_zero]
  · obtain ⟨i', rfl⟩ : ∃ i', i = i' + 1 := ⟨i - 1, by omega⟩
    rw [if_neg (by omega), if_neg (by omega)]
    simp only [Nat.add_sub_cancel]
    rw [chainAt_succ b inp rest i' (by omega)]

theorem timesMono_anti : ∀ (l : List (Nat × Nat)) {t t' : Nat},
    t' ≤ t → timesMono t l → timesMono t' l
  | [], _, _, _, _ => trivial
  | inp :: rest, t, t', h, ht => ⟨le_trans h ht.1, ht.2.1, ht.2.2⟩

theorem chain_change_time_lb :
    ∀ (inputs : List (Nat × Nat)) (b : Buttons),
      b.lastButtonReadTime < 2 ^ 32 → timesMono b.lastButtonReadTime inputs →
      ∀ j, j < inputs.length → chainChanged b inputs j →
      b.lastButtonReadTime + 5 ≤ (inputs.getD j (0, 0)).1
  | [], b => by intro _ _ j hj _; simp at hj
  | inp :: rest, b => by
    intro hlast ht j hj hchg
    obtain ⟨h1, h2, h3⟩ := ht
    match j with
    | 0 =>
      have hchg0 : (updateButtons b inp.1 inp.2).buttonState ≠ b.buttonState := by
        simpa [chainChanged, chainAt_zero, chainPrevState] using hchg
      obtain ⟨hs, -⟩ := updateButtons_change_sample b inp.1 inp.2 hchg0
      rw [sub32_eq h1 h2] at hs
      simp only [List.getD_cons_zero]
      omega
    | j' + 1 =>
      have hj' : j' < rest.length := by simpa using hj
      have hchg' := (chainChanged_succ b inp rest j' hj').1 hchg
      have hlast' : (updateButtons b inp.1 inp.2).lastButtonReadTime < 2 ^ 32 := by
        rcases updateButtons_last_cases b inp.1 inp.2 with h | h <;> omega
      have hge : b.lastButtonReadTime ≤ (updateButtons b inp.1 inp.2).lastButtonReadTime := by
        rcases updateButtons_last_cases b inp.1 inp.2 with h | h <;> omega
      have hmono' : timesMono (updateButtons b inp.1 inp.2).lastButtonReadTime rest := by
        apply timesMono_anti rest _ h3
        rcases updateButtons_last_cases b inp.1 inp.2 with h | h <;> omega
      have := chain_change_time_lb rest (updateButtons b inp.1 inp.2) hlast' hmono' j' hj' hchg'
      simp only [List.getD_cons_succ]
      omega

theorem chain_changes_separated :
    ∀ (inputs : List (Nat × Nat)) (b : Buttons),
      b.lastButtonReadTime < 2 ^ 32 → timesMono b.lastButtonReadTime inputs →
      ∀ i j, i < j → j < inputs.length → chainChanged b inputs i → chainChanged b inputs j →
      (inputs.getD i (0, 0)).1 + 5 ≤ (inputs.getD j (0, 0)).1
  | [], b => by intro _ _ i j _ hj _ _; simp at hj
  | inp :: rest, b => by
    intro hlast ht i j hij hj hci hcj
    obtain ⟨h1, h2, h3⟩ := ht
    have hlast' : (updateButtons b inp.1 inp.2).lastButtonReadTime < 2 ^ 32 := by
      rcases updateButtons_last_cases b inp.1 inp.2 with h | h <;> omega
    have hmono' : timesMono (updateButtons b inp.1 inp.2).lastButtonReadTime rest := by
      apply timesMono_anti rest _ h3
      rcases updateButtons_last_cases b inp.1 inp.2 with h | h <;> omega
    match i, j with
    | 0, j' + 1 =>
      have hj' : j' < rest.length := by simpa using hj
      have hchg0 : (updateButtons b inp.1 inp.2).buttonState ≠ b.buttonState := by
        simpa [chainChanged, chainAt_zero, chainPrevState] using hci
      obtain ⟨-, hsetl⟩ := updateButtons_change_sample b inp.1 inp.2 hchg0
      have hcj' := (chainChanged_succ b inp rest j' hj').1 hcj
      have := chain_change_time_lb rest (updateButtons b inp.1 inp.2) hlast' hmono' j' hj' hcj'
      simp only [List.getD_cons_succ, List.getD_cons_zero]
      omega
    | i' + 1, j' + 1 =>
      have hj' : j' < rest.length := by simpa using hj
      have hci' := (chainChanged_succ b inp rest i' (by omega)).1 hci
      have hcj' := (chainChanged_succ b inp rest j' hj').1 hcj
      have := chain_changes_separated rest (updateButtons b inp.1 inp.2) hlast' hmono'
        i' j' (by omega) hj' hci' hcj'
      simpa using this

/-- Claim C6: along any run of poll calls with monotone timestamps, the
pressed and released edge sets are bitwise disjoint on every call, each
call shows a non-empty edge set exactly when the debounced state changed
at that call (edges are empty on all intermediate calls), and any two
calls at which the debounced state changed are at least one 5 ms
debounce interval apart. -/
theorem claim6_button_invariants (b : Buttons) (inputs : List (Nat × Nat))
    (hbs : b.buttonState < 4) (hprev : b.prevButtonState = b.buttonState)
    (hlast : b.lastButtonReadTime < 2 ^ 32) (ht : timesMono b.lastButtonReadTime inputs) :
    (∀ x ∈ buttonsChain b inputs, x.buttonPressed &&& x.buttonReleased = 0)
      ∧ (∀ i, i < inputs.length →
          ((chainAt b inputs i).buttonPressed ≠ 0 ∨ (chainAt b inputs i).buttonReleased ≠ 0
            ↔ chainChanged b inputs i))
      ∧ (∀ i j, i < j → j < inputs.length → chainChanged b inputs i → chainChanged b inputs j →
          (inputs.getD i (0, 0)).1 + 5 ≤ (inputs.getD j (0, 0)).1) := by
  refine ⟨?_, ?_, fun i j hij hj hci hcj =>
    chain_changes_separated inputs b hlast ht i j hij hj hci hcj⟩
  · clear ht hlast
    induction inputs generalizing b with
    | nil => intro x hx; simp [buttonsChain] at hx
    | cons inp rest ih =>
      intro x hx
      simp only [buttonsChain, List.mem_cons] at hx
      rcases hx with rfl | hx
      · rw [updateButtons_pressed_eq, updateButtons_released_eq]
        exact edge_mutex (updateButtons_state_lt b inp.1 inp.2 hbs) (hprev ▸ hbs)
      · exact ih (updateButtons b inp.1 inp.2) (updateButtons_state_lt b inp.1 inp.2 hbs)
          (updateButtons_prev_eq b inp.1 inp.2) x hx
  · clear ht hlast
    induction inputs generalizing b with
    | nil => intro i hi; simp at hi
    | cons inp rest ih =>
      intro i hi
      match i with
      | 0 =>
        simp only [chainChanged, chainAt_zero, chainPrevState, if_pos rfl]
        rw [updateButtons_pressed_eq, updateButtons_released_eq, hprev]
        exact edge_iff_ne (updateButtons_state_lt b inp.1 inp.2 hbs) hbs
      | i' + 1 =>
        have hi' : i' < rest.length := by simpa using hi
        rw [chainAt_succ b inp rest i' hi', chainChanged_succ b inp rest i' hi']
        exact ih (updateButtons b inp.1 inp.2) (updateButtons_state_lt b inp.1 inp.2 hbs)
          (updateButtons_prev_eq b inp.1 inp.2) i' hi'

theorem lor_and_distrib (a b c : Nat) : (a ||| b) &&& c = (a &&& c) ||| (b &&& c) := by
  apply Nat.eq_of_testBit_eq
  intro i
  simp only [Nat.testBit_and, Nat.testBit_or]
  cases a.testBit i <;> cases b.testBit i <;> cases c.testBit i <;> decide

theorem and_and_eq_zero {a c : Nat} (h : a &&& c = 0) (b : Nat) : (a &&& b) &&& c = 0 := by
  apply Nat.eq_of_testBit_eq
  intro i
  have hi := congrArg (fun x => x.testBit i) h
  simp only [Nat.testBit_and, Nat.zero_testBit] at hi ⊢
  cases h1 : a.testBit i <;> cases h2 : c.testBit i <;> simp_all

theorem updateDisplay_portD_eq (d : Disp) (pD t dots en : Nat) :
    (updateDisplay d pD t dots en).2
      = (pD &&& 248) ||| ((1 <<< (if d.digit + 1 = 3 then 0 else d.digit + 1)) &&& en) := rfl

theorem updateDisplay_portB_eq (d : Disp) (pD t dots en : Nat) :
    (updateDisplay d pD t dots en).1.portB
      = segdata.getD (displayedDigitValue t (if d.digit + 1 = 3 then 0 else d.digit + 1)) 0
          ||| (dots &&& SEG_DOTS) := rfl

theorem updateDisplay_digit_eq (d : Disp) (pD t dots en : Nat) :
    (updateDisplay d pD t dots en).1.digit = if d.digit + 1 = 3 then 0 else d.digit + 1 := rfl

theorem updateDisplay_digit_lt (d : Disp) (pD t dots en : Nat) (hd : d.digit < 3) :
    (updateDisplay d pD t dots en).1.digit < 3 := by
  rw [updateDisplay_digit_eq]
  split <;> omega

theorem cursor_bit_hi (g : Nat) (hg : g < 3) : 1 <<< g &&& 96 = 0 := by
  interval_cases g <;> decide

theorem updateDisplay_portD_mask96 (d : Disp) (pD t dots en : Nat) (hd : d.digit < 3) :
    (updateDisplay d pD t dots en).2 &&& 96 = pD &&& 96 := by
  rw [updateDisplay_portD_eq, lor_and_distrib]
  have hg : (if d.digit + 1 = 3 then 0 else d.digit + 1) < 3 := by split <;> omega
  rw [and_and_eq_zero (cursor_bit_hi _ hg), Nat.or_zero, Nat.and_assoc]
  have h248 : (248 : Nat) &&& 96 = 96 := by decide
  rw [h248]

theorem segdata_no_dots (t : Nat) : segdata.getD t 0 &&& SEG_DOTS = 0 := by
  rcases Nat.lt_or_ge t 10 with h | h
  · interval_cases t <;> decide
  · rw [List.getD_eq_default _ _ (by simpa using h)]
    decide

theorem updateDisplay_portB_dots (d : Disp) (pD t dots en : Nat) :
    (updateDisplay d pD t dots en).1.portB &&& SEG_DOTS = dots &&& SEG_DOTS := by
  rw [updateDisplay_portB_eq, lor_and_distrib, segdata_no_dots, Nat.zero_or, Nat.and_assoc]
  have h64 : SEG_DOTS &&& SEG_DOTS = SEG_DOTS := by decide
  rw [h64]

theorem cursor_bit_lo (g : Nat) (hg : g < 3) :
    1 <<< g &&& 255 &&& 7 = 1 <<< g := by
  interval_cases g <;> decide

theorem updateDisplay_portD_mask7 (d : Disp) (pD t dots : Nat) (hd : d.digit < 3) :
    (updateDisplay d pD t dots 255).2 &&& 7
        = 1 <<< (if d.digit + 1 = 3 then 0 else d.digit + 1)
      ∧ (updateDisplay d pD t dots 0).2 &&& 7 = 0 := by
  have h248 : (248 : Nat) &&& 7 = 0 := by decide
  have hg : (if d.digit + 1 = 3 then 0 else d.digit + 1) < 3 := by split <;> omega
  constructor
  · rw [updateDisplay_portD_eq, lor_and_distrib, Nat.and_assoc, h248, Nat.and_zero,
      Nat.zero_or, cursor_bit_lo _ hg]
  · rw [updateDisplay_portD_eq, Nat.and_zero, Nat.or_zero, Nat.and_assoc, h248, Nat.and_zero]

theorem exposureStep_eq_pos (eT sT : Nat) (s : ExpState) (inp : Nat × Nat)
    (ht : remainingAt eT sT inp.1 ≠ 0) :
    exposureStep eT sT s inp =
      (⟨(updateDisplay s.disp s.portD (remainingAt eT sT inp.1)
            (if s.blink < 512 then 255 else 0) (if s.blink < 512 then 255 else 0)).2,
        s.blink,
        if (updateButtons s.buttons inp.1 inp.2).buttonState &&& BUTTON_START ≠ 0 then
          (s.startButtonDownTime + 1) % 65536 else 0,
        updateButtons s.buttons inp.1 inp.2,
        (updateDisplay s.disp s.portD (remainingAt eT sT inp.1)
            (if s.blink < 512 then 255 else 0) (if s.blink < 512 then 255 else 0)).1⟩,
       if (if (updateButtons s.buttons inp.1 inp.2).buttonState &&& BUTTON_START ≠ 0 then
            (s.startButtonDownTime + 1) % 65536 else 0) = 500 then
         some ExpExit.cancelled else none) := by
  simp only [exposureStep]
  rw [if_neg ht]

theorem exposureStep_eq_zero (eT sT : Nat) (s : ExpState) (inp : Nat × Nat)
    (ht : remainingAt eT sT inp.1 = 0) :
    exposureStep eT sT s inp =
      (if (updateButtons s.buttons inp.1 inp.2).buttonState &&& BUTTON_START ≠ 0 then
        (⟨turnOffMosfets (updateDisplay s.disp s.portD (remainingAt eT sT inp.1)
              (if s.blink < 512 then 255 else 0) (if s.blink < 512 then 255 else 0)).2,
          (s.blink + 2) &&& 1023, s.startButtonDownTime,
          updateButtons s.buttons inp.1 inp.2,
          (updateDisplay s.disp s.portD (remainingAt eT sT inp.1)
              (if s.blink < 512 then 255 else 0) (if s.blink < 512 then 255 else 0)).1⟩,
         some ExpExit.finished)
      else
        (⟨turnOffMosfets (updateDisplay s.disp s.portD (remainingAt eT sT inp.1)
              (if s.blink < 512 then 255 else 0) (if s.blink < 512 then 255 else 0)).2,
          (s.blink + 2) &&& 1023, 0,
          updateButtons s.buttons inp.1 inp.2,
          (updateDisplay s.disp s.portD (remainingAt eT sT inp.1)
              (if s.blink < 512 then 255 else 0) (if s.blink < 512 then 255 else 0)).1⟩,
         none)) := by
  simp only [exposureStep]
  rw [if_pos ht]

theorem exposureStep_pos_state (eT sT : Nat) (s : ExpState) (inp : Nat × Nat)
    (ht : remainingAt eT sT inp.1 ≠ 0) (hd : s.disp.digit < 3) :
    (exposureStep eT sT s inp).1.portD &&& 96 = s.portD &&& 96
      ∧ (exposureStep eT sT s inp).1.blink = s.blink
      ∧ (exposureStep eT sT s inp).1.disp.digit < 3
      ∧ (exposureStep eT sT s inp).1.disp.portB &&& SEG_DOTS
          = (if s.blink < 512 then (64 : Nat) else 0)
      ∧ (s.blink < 512 → (exposureStep eT sT s inp).1.portD &&& 7 ≠ 0)
      ∧ (512 ≤ s.blink → (exposureStep eT sT s inp).1.portD &&& 7 = 0) := by
  rw [exposureStep_eq_pos eT sT s inp ht]
  dsimp only
  refine ⟨updateDisplay_portD_mask96 _ _ _ _ _ hd, rfl,
    updateDisplay_digit_lt _ _ _ _ _ hd, ?_, ?_, ?_⟩
  · rw [updateDisplay_portB_dots]
    by_cases hb : s.blink < 512
    · rw [if_pos hb, if_pos hb]; decide
    · rw [if_neg hb, if_neg hb]; decide
  · intro hb
    rw [if_pos hb, (updateDisplay_portD_mask7 s.disp s.portD _ 255 hd).1]
    have hg : (if s.disp.digit + 1 = 3 then 0 else s.disp.digit + 1) < 3 := by split <;> omega
    generalize (if s.disp.digit + 1 = 3 then 0 else s.disp.digit + 1) = g at hg
    interval_cases g <;> decide
  · intro hb
    rw [if_neg (by omega), (updateDisplay_portD_mask7 s.disp s.portD _ 0 hd).2]

theorem turnOffMosfets_mask96 (pD : Nat) : turnOffMosfets pD &&& 96 = 0 := by
  show pD &&& 159 &&& 96 = 0
  rw [Nat.and_assoc]
  have h : (159 : Nat) &&& 96 = 0 := by decide
  rw [h, Nat.and_zero]

theorem turnOffMosfets_mask7 (pD : Nat) : turnOffMosfets pD &&& 7 = pD &&& 7 := by
  show pD &&& 159 &&& 7 = pD &&& 7
  rw [Nat.and_assoc]
  have h : (159 : Nat) &&& 7 = 7 := by decide
  rw [h]

theorem exposureStep_zero_state (eT sT : Nat) (s : ExpState) (inp : Nat × Nat)
    (ht : remainingAt eT sT inp.1 = 0) (hd : s.disp.digit < 3) :
    (exposureStep eT sT s inp).1.blink = (s.blink + 2) &&& 1023
      ∧ (exposureStep eT sT s inp).1.portD &&& 96 = 0
      ∧ ((exposureStep eT sT s inp).1.disp.portB &&& SEG_DOTS = 64 ↔ s.blink < 512)
      ∧ ((exposureStep eT sT s inp).1.portD &&& 7 ≠ 0 ↔ s.blink < 512) := by
  rw [exposureStep_eq_zero eT sT s inp ht]
  have hg : (if s.disp.digit + 1 = 3 then 0 else s.disp.digit + 1) < 3 := by split <;> omega
  by_cases hs : (updateButtons s.buttons inp.1 inp.2).buttonState &&& BUTTON_START ≠ 0
  all_goals
    first
      | rw [if_pos hs]
      | rw [if_neg hs]
  all_goals
    dsimp only
    refine ⟨rfl, turnOffMosfets_mask96 _, ?_, ?_⟩
    · rw [updateDisplay_portB_dots]
      by_cases hb : s.blink < 512
      · rw [if_pos hb]
        exact ⟨fun _ => hb, fun _ => by decide⟩
      · rw [if_neg hb]
        exact ⟨fun h0 => absurd h0 (by decide), fun hcon => absurd hcon hb⟩
    · rw [turnOffMosfets_mask7]
      by_cases hb : s.blink < 512
      · rw [if_pos hb, (updateDisplay_portD_mask7 s.disp s.portD _ 255 hd).1]
        refine ⟨fun _ => hb, fun _ => ?_⟩
        generalize (if s.disp.digit + 1 = 3 then 0 else s.disp.digit + 1) = g at hg
        interval_cases g <;> decide
      · rw [if_neg hb, (updateDisplay_portD_mask7 s.disp s.portD _ 0 hd).2]
        exact ⟨fun h => absurd rfl h, fun hcon => absurd hcon hb⟩

theorem updateDisplay_portD_mask96_en0 (d : Disp) (pD t dots : Nat) :
    (updateDisplay d pD t dots 0).2 &&& 96 = pD &&& 96 := by
  rw [updateDisplay_portD_eq, Nat.and_zero, Nat.or_zero, Nat.and_assoc]
  have h248 : (248 : Nat) &&& 96 = 96 := by decide
  rw [h248]

theorem waitUntilButtonsReleased_mask96 :
    ∀ (inputs : List (Nat × Nat)) (b : Buttons) (d : Disp) (pD : Nat)
      (b' : Buttons) (d' : Disp) (pD' : Nat) (rest : List (Nat × Nat)),
      waitUntilButtonsReleased b d pD inputs = some (b', d', pD', rest) →
      pD' &&& 96 = pD &&& 96
  | [], b, d, pD => by
    intro b' d' pD' rest h
    simp [waitUntilButtonsReleased] at h
  | inp :: tl, b, d, pD => by
    intro b' d' pD' rest h
    simp only [waitUntilButtonsReleased] at h
    split at h
    · simp only [Option.some.injEq, Prod.mk.injEq] at h
      obtain ⟨-, -, hpd, -⟩ := h
      subst hpd
      exact updateDisplay_portD_mask96_en0 d pD 0 0
    · have := waitUntilButtonsReleased_mask96 tl _ _ _ b' d' pD' rest h
      rw [this, updateDisplay_portD_mask96_en0 d pD 0 0]

theorem exposureLoop_run_pos :
    ∀ (inputs : List (Nat × Nat)) (eT sT : Nat) (s : ExpState), s.disp.digit < 3 →
      (∀ inp ∈ inputs, remainingAt eT sT inp.1 ≠ 0) →
      ∀ st ∈ exposureLoopStates eT sT s inputs,
        st.portD &&& 96 = s.portD &&& 96 ∧ st.blink = s.blink ∧ st.disp.digit < 3
          ∧ (s.blink < 512 → st.disp.portB &&& SEG_DOTS = 64 ∧ st.portD &&& 7 ≠ 0)
  | [], eT, sT, s => by
    intro _ _ st hst
    simp [exposureLoopStates] at hst
  | inp :: rest, eT, sT, s => by
    intro hd hall st hst
    have ht : remainingAt eT sT inp.1 ≠ 0 := hall inp (by simp)
    obtain ⟨hm96, hbl, hdig, hdot, h7pos, h7neg⟩ := exposureStep_pos_state eT sT s inp ht hd
    simp only [exposureLoopStates] at hst
    rcases hstep : exposureStep eT sT s inp with ⟨s1, e1⟩
    rw [hstep] at hst hm96 hbl hdig hdot h7pos h7neg
    dsimp only at hst hm96 hbl hdig hdot h7pos h7neg
    cases e1 with
    | some e =>
      simp only [List.mem_singleton] at hst
      subst hst
      refine ⟨hm96, hbl, hdig, fun hb => ⟨?_, h7pos hb⟩⟩
      rw [hdot, if_pos hb]
    | none =>
      simp only [List.mem_cons] at hst
      rcases hst with rfl | hst
      · refine ⟨hm96, hbl, hdig, fun hb => ⟨?_, h7pos hb⟩⟩
        rw [hdot, if_pos hb]
      · have hall' : ∀ q ∈ rest, remainingAt eT sT q.1 ≠ 0 := fun q hq => hall q (by simp [hq])
        obtain ⟨h96', hbl', hdig', hdot'⟩ :=
          exposureLoop_run_pos rest eT sT s1 hdig hall' st hst
        refine ⟨h96'.trans hm96, hbl'.trans hbl, hdig', fun hb => hdot' (by omega)⟩

/-- Claim C1: the exposure routine asserts the output-channel bits of
port D according to the selected mode on entry (Top asserts bit 5,
Bottom bit 6, Both asserts both, the value `(mode+1) <<< 5`), those bits
are preserved by every loop cycle on which the remaining time is
positive, and whenever the routine returns (under either exit condition
of the loop) both output-channel bits of the final port D are clear. -/
theorem claim1_exposure_outputs (mode eT sT : Nat) (hm : mode < 3) :
    (∀ pD : Nat, pD &&& 96 = 0 → turnOnMosfets mode pD &&& 96 = (mode + 1) <<< 5)
      ∧ (∀ (s : ExpState) (inputs : List (Nat × Nat)), s.disp.digit < 3 →
          (∀ inp ∈ inputs, remainingAt eT sT inp.1 ≠ 0) →
          ∀ st ∈ exposureLoopStates eT sT s inputs, st.portD &&& 96 = s.portD &&& 96)
      ∧ (∀ (b : Buttons) (d : Disp) (pD : Nat) (inputs : List (Nat × Nat))
          (r : Buttons × Disp × Nat),
          exposure mode eT b d pD inputs sT = some r → r.2.2 &&& 96 = 0) := by
  refine ⟨?_, ?_, ?_⟩
  · intro pD h
    have hmod : ((mode + 1) <<< 5) % 256 = (mode + 1) <<< 5 := by
      interval_cases mode <;> decide
    show (pD ||| (((mode + 1) <<< 5) % 256)) &&& 96 = (mode + 1) <<< 5
    rw [hmod, lor_and_distrib, h, Nat.zero_or]
    interval_cases mode <;> decide
  · intro s inputs hd hall st hst
    exact (exposureLoop_run_pos inputs eT sT s hd hall st hst).1
  · intro b d pD inputs r h
    simp only [exposure] at h
    split at h
    · exact absurd h (by simp)
    · rename_i o1 b1 d1 pD1 rest1 h1
      split at h
      · exact absurd h (by simp)
      · rename_i o2 s1 e1 rest2 h2
        split at h
        · exact absurd h (by simp)
        · rename_i o3 b2 d2 pD2 rest3 h3
          simp only [Option.some.injEq] at h
          subst h
          have hstart : turnOffMosfets s1.portD &&& 96 = 0 := turnOffMosfets_mask96 _
          have := waitUntilButtonsReleased_mask96 rest2 s1.buttons s1.disp
            (turnOffMosfets s1.portD) b2 d2 pD2 rest3 h3
          rw [this, hstart]

theorem claim1_witness :
    turnOnMosfets 0 0 &&& 96 = (0 + 1) <<< 5
      ∧ ((exposureLoopStates 599 0 ⟨96, 0, 0, ⟨0, 0, 0, 0, 0⟩, ⟨0, 0⟩⟩ [(1, 3)]).getD 0
          ⟨96, 0, 0, ⟨0, 0, 0, 0, 0⟩, ⟨0, 0⟩⟩).portD &&& 96
        = (⟨96, 0, 0, ⟨0, 0, 0, 0, 0⟩, ⟨0, 0⟩⟩ : ExpState).portD &&& 96
      ∧ ((⟨0, 0, 0, 1, 15⟩, ⟨0, 4⟩, (0 : Nat)) : Buttons × Disp × Nat).2.2 &&& 96 = 0 := by
  have h := claim1_exposure_outputs 0 599 0 (by decide)
  have h' := claim1_exposure_outputs 0 0 0 (by decide)
  refine ⟨h.1 0 rfl, ?_, ?_⟩
  · exact h.2.1 ⟨96, 0, 0, ⟨0, 0, 0, 0, 0⟩, ⟨0, 0⟩⟩ [(1, 3)] (by decide)
      (by decide) _ (by decide)
  · exact h'.2.2 ⟨0, 0, 0, 0, 0⟩ ⟨0, 0⟩ 0 [(5, 3), (10, 2), (15, 3)]
      (⟨0, 0, 0, 1, 15⟩, ⟨0, 4⟩, 0) (by decide)

/-- Claim C7 counterexample: a 600-cycle exposure run (duration 599 s,
1 ms per cycle, no buttons) on which the remaining time is positive on
every cycle, the loop runs all 600 cycles, and the decimal-dot line of
the segment port is asserted on every single cycle: the dot does not
alternate between lit and blanked while remaining is positive, although
600 cycles exceed the full period of the blink counter (512 cycles at +2
per cycle modulo 1024). -/
theorem claim7_counterexample :
    ((List.range 600).map (fun i => (i + 1, 3))).all
        (fun inp => remainingAt 599 0 inp.1 != 0) = true
      ∧ (exposureLoopStates 599 0 ⟨96, 0, 0, ⟨0, 0, 0, 0, 0⟩, ⟨0, 0⟩⟩
          ((List.range 600).map (fun i => (i + 1, 3)))).length = 600
      ∧ (exposureLoopStates 599 0 ⟨96, 0, 0, ⟨0, 0, 0, 0, 0⟩, ⟨0, 0⟩⟩
          ((List.range 600).map (fun i => (i + 1, 3)))).all
          (fun st => st.disp.portB &&& 64 == 64) = true := by
  exact ⟨by decide, by decide, by decide⟩

/-- Claim C7, amended: while the remaining time is positive the blink
counter stays at its entry value 0, so the decimal-dot line is steadily
asserted and the cursor digit is steadily enabled (no blinking); once
the remaining time reaches 0, each cycle advances the blink counter by 2
modulo 1024 and drives both the decimal-dot line and the digit-enable
bits from it in step (asserted in the half-period where the counter is
below 512, blanked otherwise) until the loop exits. -/
theorem claim7_blink_behaviour (eT sT : Nat) :
    (∀ (s : ExpState) (inputs : List (Nat × Nat)), s.disp.digit < 3 → s.blink = 0 →
      (∀ inp ∈ inputs, remainingAt eT sT inp.1 ≠ 0) →
      ∀ st ∈ exposureLoopStates eT sT s inputs,
        st.blink = 0 ∧ st.disp.portB &&& SEG_DOTS = 64 ∧ st.portD &&& 7 ≠ 0)
      ∧ (∀ (s : ExpState) (inp : Nat × Nat), remainingAt eT sT inp.1 = 0 →
          s.disp.digit < 3 →
          (exposureStep eT sT s inp).1.blink = (s.blink + 2) &&& 1023
            ∧ ((exposureStep eT sT s inp).1.disp.portB &&& SEG_DOTS = 64 ↔ s.blink < 512)
            ∧ ((exposureStep eT sT s inp).1.portD &&& 7 ≠ 0 ↔ s.blink < 512)) := by
  constructor
  · intro s inputs hd hb hall st hst
    obtain ⟨-, hbl, -, hdot⟩ := exposureLoop_run_pos inputs eT sT s hd hall st hst
    rw [hb] at hbl hdot
    exact ⟨hbl, hdot (by omega)⟩
  · intro s inp ht hd
    obtain ⟨h1, -, h3, h4⟩ := exposureStep_zero_state eT sT s inp ht hd
    exact ⟨h1, h3, h4⟩

theorem claim7_witness :
    ((exposureLoopStates 599 0 ⟨96, 0, 0, ⟨0, 0, 0, 0, 0⟩, ⟨0, 0⟩⟩ [(1, 3)]).getD 0
        ⟨96, 0, 0, ⟨0, 0, 0, 0, 0⟩, ⟨0, 0⟩⟩).blink = 0
      ∧ ((exposureStep 0 0 ⟨96, 0, 0, ⟨0, 0, 0, 0, 0⟩, ⟨0, 0⟩⟩ (1, 3)).1.blink
          = (0 + 2) &&& 1023) := by
  constructor
  · exact ((claim7_blink_behaviour 599 0).1 ⟨96, 0, 0, ⟨0, 0, 0, 0, 0⟩, ⟨0, 0⟩⟩ [(1, 3)]
      (by decide) rfl (by decide) _ (by decide)).1
  · exact ((claim7_blink_behaviour 0 0).2 ⟨96, 0, 0, ⟨0, 0, 0, 0, 0⟩, ⟨0, 0⟩⟩ (1, 3)
      (by decide) (by decide)).1

theorem heldTrace_cons (b : Buttons) (inp : Nat × Nat) (rest : List (Nat × Nat)) :
    heldTrace b (inp :: rest)
      = decide ((updateButtons b inp.1 inp.2).buttonState &&& BUTTON_START ≠ 0)
          :: heldTrace (updateButtons b inp.1 inp.2) rest := rfl

theorem streakFrom_cons (n : Nat) (h : Bool) (l : List Bool) :
    streakFrom n (h :: l) = streakFrom (if h then n + 1 else 0) l := rfl

theorem getLastD_irrel {α : Type} (l : List α) (d1 d2 : α) (h : l ≠ []) :
    l.getLastD d1 = l.getLastD d2 := by
  cases l with
  | nil => exact absurd rfl h
  | cons a t => rw [List.getLastD_cons, List.getLastD_cons]

theorem streak_decomp (l : List Bool) :
    ∃ pre, l = pre ++ List.replicate (streakFrom 0 l) true ∧ pre.getLast? ≠ some true := by
  induction l using List.reverseRecOn with
  | nil => exact ⟨[], by simp [streakFrom], by simp⟩
  | append_singleton l b ih =>
    have hfold : streakFrom 0 (l ++ [b]) = if b then streakFrom 0 l + 1 else 0 := by
      simp [streakFrom, List.foldl_append]
    cases b with
    | false =>
      refine ⟨l ++ [false], ?_, ?_⟩
      · rw [hfold]
        simp
      · rw [List.getLast?_concat]
        simp
    | true =>
      obtain ⟨pre, hpre, hlast⟩ := ih
      refine ⟨pre, ?_, hlast⟩
      rw [hfold]
      simp only [if_true]
      rw [List.replicate_succ', ← List.append_assoc, ← hpre]

theorem exposureLoop_cancel_spec :
    ∀ (inputs : List (Nat × Nat)) (eT sT : Nat) (s : ExpState)
      (s' : ExpState) (e : ExpExit) (rest : List (Nat × Nat)),
      s.startButtonDownTime < 500 →
      exposureLoop eT sT s inputs = some (s', e, rest) →
      ∃ c, inputs = c ++ rest ∧ c ≠ [] ∧
        (e = ExpExit.cancelled ↔
          streakFrom s.startButtonDownTime (heldTrace s.buttons c) = 500
            ∧ remainingAt eT sT (c.getLastD (0, 0)).1 ≠ 0)
  | [], eT, sT, s => by
    intro s' e rest hlt h
    simp [exposureLoop] at h
  | inp :: tl, eT, sT, s => by
    intro s' e rest hlt h
    simp only [exposureLoop] at h
    by_cases hthe : remainingAt eT sT inp.1 = 0
    · rw [exposureStep_eq_zero eT sT s inp hthe] at h
      by_cases hheld : (updateButtons s.buttons inp.1 inp.2).buttonState &&& BUTTON_START ≠ 0
      · rw [if_pos hheld] at h
        dsimp only at h
        simp only [Option.some.injEq, Prod.mk.injEq] at h
        obtain ⟨-, he, hr⟩ := h
        subst he
        subst hr
        refine ⟨[inp], rfl, by simp, ?_, ?_⟩
        · intro hfc
          exact ExpExit.noConfusion hfc
        · rintro ⟨-, hrem⟩
          simp only [List.getLastD_cons, List.getLastD_nil] at hrem
          exact absurd hthe hrem
      · rw [if_neg hheld] at h
        dsimp only at h
        obtain ⟨c', hceq, hcne, hiff⟩ :=
          exposureLoop_cancel_spec tl eT sT _ s' e rest (by dsimp only; omega) h
        dsimp only at hiff
        refine ⟨inp :: c', by rw [hceq]; rfl, by simp, ?_⟩
        rw [heldTrace_cons, streakFrom_cons, decide_eq_false hheld, if_neg (by simp),
          List.getLastD_cons, getLastD_irrel c' inp (0, 0) hcne]
        exact hiff
    · rw [exposureStep_eq_pos eT sT s inp hthe] at h
      by_cases hheld : (updateButtons s.buttons inp.1 inp.2).buttonState &&& BUTTON_START ≠ 0
      · rw [if_pos hheld] at h
        have hmod : (s.startButtonDownTime + 1) % 65536 = s.startButtonDownTime + 1 :=
          Nat.mod_eq_of_lt (by omega)
        rw [hmod] at h
        by_cases h500 : s.startButtonDownTime + 1 = 500
        · rw [if_pos h500] at h
          dsimp only at h
          simp only [Option.some.injEq, Prod.mk.injEq] at h
          obtain ⟨-, he, hr⟩ := h
          subst he
          subst hr
          refine ⟨[inp], rfl, by simp, fun _ => ?_, fun _ => rfl⟩
          constructor
          · rw [heldTrace_cons, streakFrom_cons, decide_eq_true hheld, if_pos rfl]
            show streakFrom (s.startButtonDownTime + 1) (heldTrace _ []) = 500
            simpa [heldTrace, buttonsChain, streakFrom] using h500
          · simp only [List.getLastD_cons, List.getLastD_nil]
            exact hthe
        · rw [if_neg h500] at h
          dsimp only at h
          obtain ⟨c', hceq, hcne, hiff⟩ :=
            exposureLoop_cancel_spec tl eT sT _ s' e rest (by dsimp only; omega) h
          dsimp only at hiff
          refine ⟨inp :: c', by rw [hceq]; rfl, by simp, ?_⟩
          rw [heldTrace_cons, streakFrom_cons, decide_eq_true hheld, if_pos rfl,
            List.getLastD_cons, getLastD_irrel c' inp (0, 0) hcne]
          exact hiff
      · rw [if_neg hheld] at h
        rw [if_neg (show (0 : Nat) ≠ 500 by omega)] at h
        dsimp only at h
        obtain ⟨c', hceq, hcne, hiff⟩ :=
          exposureLoop_cancel_spec tl eT sT _ s' e rest (by dsimp only; omega) h
        dsimp only at hiff
        refine ⟨inp :: c', by rw [hceq]; rfl, by simp, ?_⟩
        rw [heldTrace_cons, streakFrom_cons, decide_eq_false hheld, if_neg (by simp),
          List.getLastD_cons, getLastD_irrel c' inp (0, 0) hcne]
        exact hiff

/-- Claim C3: starting a single exposure session with the hold counter
at 0, the loop exits through the early-cancel condition if and only if
the per-cycle hold counter (which increments on each cycle on which the
debounced Start button reads held and is reset to 0 by any cycle on
which it does not, the evolution computed by `streakFrom` over the held
trace) has reached 500 with remaining time still positive at the exit
cycle; in that case the consumed cycles end in exactly 500 consecutive
held cycles, preceded by a non-held cycle (or by the session start). -/
theorem claim3_early_cancel (eT sT : Nat) (s : ExpState) (inputs : List (Nat × Nat))
    (s' : ExpState) (e : ExpExit) (rest : List (Nat × Nat))
    (hz : s.startButtonDownTime = 0)
    (h : exposureLoop eT sT s inputs = some (s', e, rest)) :
    ∃ c, inputs = c ++ rest ∧ c ≠ [] ∧
      (e = ExpExit.cancelled ↔
        streakFrom 0 (heldTrace s.buttons c) = 500
          ∧ remainingAt eT sT (c.getLastD (0, 0)).1 ≠ 0)
      ∧ (e = ExpExit.cancelled →
          ∃ pre, heldTrace s.buttons c = pre ++ List.replicate 500 true
            ∧ pre.getLast? ≠ some true) := by
  obtain ⟨c, hc, hne, hiff⟩ :=
    exposureLoop_cancel_spec inputs eT sT s s' e rest (by omega) h
  rw [hz] at hiff
  refine ⟨c, hc, hne, hiff, fun hcan => ?_⟩
  obtain ⟨hstreak, -⟩ := hiff.1 hcan
  obtain ⟨pre, hpre, hlast⟩ := streak_decomp (heldTrace s.buttons c)
  rw [hstreak] at hpre
  exact ⟨pre, hpre, hlast⟩

theorem claim3_witness :
    ∃ c, ([(5, 2)] : List (Nat × Nat)) = c ++ [] ∧ c ≠ []
      ∧ (ExpExit.finished = ExpExit.cancelled ↔
          streakFrom 0 (heldTrace ⟨0, 0, 0, 0, 0⟩ c) = 500
            ∧ remainingAt 0 0 (c.getLastD (0, 0)).1 ≠ 0)
      ∧ (ExpExit.finished = ExpExit.cancelled →
          ∃ pre, heldTrace ⟨0, 0, 0, 0, 0⟩ c = pre ++ List.replicate 500 true
            ∧ pre.getLast? ≠ some true) :=
  claim3_early_cancel 0 0 ⟨0, 0, 0, ⟨0, 0, 0, 0, 0⟩, ⟨0, 0⟩⟩ [(5, 2)]
    ⟨2, 2, 0, ⟨1, 1, 1, 0, 5⟩, ⟨1, 68⟩⟩ ExpExit.finished [] rfl (by decide)

theorem pressTrace_cons (b : Buttons) (inp : Nat × Nat) (rest : List (Nat × Nat)) :
    pressTrace b (inp :: rest)
      = decide ((updateButtons b inp.1 inp.2).buttonPressed &&& BUTTON_START ≠ 0)
          :: pressTrace (updateButtons b inp.1 inp.2) rest := rfl

theorem pressTrace_length (b : Buttons) (inputs : List (Nat × Nat)) :
    (pressTrace b inputs).length = inputs.length := by
  unfold pressTrace
  rw [List.length_map, buttonsChain_length]

theorem pressTrace_ne_nil (b : Buttons) (inputs : List (Nat × Nat)) (h : inputs ≠ []) :
    pressTrace b inputs ≠ [] := by
  intro hq
  apply h
  have := pressTrace_length b inputs
  rw [hq] at this
  exact List.length_eq_zero.1 this.symm

theorem count_true_cons_false (l : List Bool) :
    (false :: l).count true = l.count true := by simp

theorem count_true_cons_true (l : List Bool) :
    (true :: l).count true = l.count true + 1 := by simp

theorem editMinutes_spec :
    ∀ (inputs : List (Nat × Nat)) (mins blink eT0 : Nat) (b : Buttons) (d : Disp) (pD : Nat)
      (eT1 mins1 : Nat) (b1 : Buttons) (d1 : Disp) (pD1 : Nat) (rest1 : List (Nat × Nat)),
      mins < 10 →
      editMinutes mins blink eT0 b d pD inputs = some (eT1, mins1, b1, d1, pD1, rest1) →
      ∃ c, inputs = c ++ rest1 ∧ mins1 = (mins + (pressTrace b c).count true) % 10
  | [], mins, blink, eT0, b, d, pD => by
    intro eT1 mins1 b1 d1 pD1 rest1 hm h
    simp only [editMinutes] at h
    split at h
    · simp only [Option.some.injEq, Prod.mk.injEq] at h
      obtain ⟨-, hm1, -, -, -, hr⟩ := h
      subst hm1
      subst hr
      exact ⟨[], rfl, by simp [pressTrace, buttonsChain, Nat.mod_eq_of_lt hm]⟩
    · exact absurd h (by simp)
  | inp :: tl, mins, blink, eT0, b, d, pD => by
    intro eT1 mins1 b1 d1 pD1 rest1 hm h
    simp only [editMinutes] at h
    split at h
    · simp only [Option.some.injEq, Prod.mk.injEq] at h
      obtain ⟨-, hm1, -, -, -, hr⟩ := h
      subst hm1
      subst hr
      exact ⟨[], rfl, by simp [pressTrace, buttonsChain, Nat.mod_eq_of_lt hm]⟩
    · by_cases hp : (updateButtons b inp.1 inp.2).buttonPressed &&& BUTTON_START ≠ 0
      · rw [if_pos hp] at h
        dsimp only at h
        obtain ⟨c', hc, hm1⟩ := editMinutes_spec tl ((mins + 1) % 10) _ _ _ _ _
          eT1 mins1 b1 d1 pD1 rest1 (Nat.mod_lt _ (by omega)) h
        refine ⟨inp :: c', by rw [hc]; rfl, ?_⟩
        rw [pressTrace_cons, decide_eq_true hp, count_true_cons_true, hm1]
        omega
      · rw [if_neg hp] at h
        dsimp only at h
        obtain ⟨c', hc, hm1⟩ := editMinutes_spec tl mins _ _ _ _ _
          eT1 mins1 b1 d1 pD1 rest1 hm h
        refine ⟨inp :: c', by rw [hc]; rfl, ?_⟩
        rw [pressTrace_cons, decide_eq_false hp, count_true_cons_false, hm1]

theorem editSeconds_spec :
    ∀ (inputs : List (Nat × Nat)) (mins secs blink eT0 : Nat) (b : Buttons) (d : Disp)
      (pD : Nat) (eT2 secs2 : Nat) (b2 : Buttons) (d2 : Disp) (pD2 : Nat)
      (rest2 : List (Nat × Nat)),
      secs < 60 →
      editSeconds mins secs blink eT0 b d pD inputs = some (eT2, secs2, b2, d2, pD2, rest2) →
      ∃ c, inputs = c ++ rest2
        ∧ (c = [] → eT2 = eT0)
        ∧ (c ≠ [] → eT2
            = (mins * 60 + (secs + 5 * ((pressTrace b c).dropLast.count true)) % 60) % 65536)
        ∧ (b.buttonPressed &&& BUTTON_MODE = 0 → c ≠ [])
  | [], mins, secs, blink, eT0, b, d, pD => by
    intro eT2 secs2 b2 d2 pD2 rest2 hs h
    simp only [editSeconds] at h
    split at h
    · rename_i hcond
      simp only [Option.some.injEq, Prod.mk.injEq] at h
      obtain ⟨he, -, -, -, -, hr⟩ := h
      subst he
      subst hr
      exact ⟨[], rfl, fun _ => rfl, fun hc => absurd rfl hc, fun hp0 => absurd hp0 hcond⟩
    · exact absurd h (by simp)
  | inp :: tl, mins, secs, blink, eT0, b, d, pD => by
    intro eT2 secs2 b2 d2 pD2 rest2 hs h
    simp only [editSeconds] at h
    split at h
    · rename_i hcond
      simp only [Option.some.injEq, Prod.mk.injEq] at h
      obtain ⟨he, -, -, -, -, hr⟩ := h
      subst he
      subst hr
      exact ⟨[], rfl, fun _ => rfl, fun hc => absurd rfl hc, fun hp0 => absurd hp0 hcond⟩
    · by_cases hp : (updateButtons b inp.1 inp.2).buttonPressed &&& BUTTON_START ≠ 0
      · rw [if_pos hp] at h
        dsimp only at h
        obtain ⟨c', hc, hnil, hcons, -⟩ := editSeconds_spec tl mins ((secs + 5) % 60) _ _ _ _ _
          eT2 secs2 b2 d2 pD2 rest2 (Nat.mod_lt _ (by omega)) h
        refine ⟨inp :: c', by rw [hc]; rfl, fun hq => absurd hq (by simp), fun _ => ?_,
          fun _ => by simp⟩
        rw [pressTrace_cons, decide_eq_true hp]
        by_cases hc' : c' = []
        · subst hc'
          rw [hnil rfl]
          simp only [pressTrace, buttonsChain, List.map_nil, List.dropLast_single,
            List.count_nil, Nat.mul_zero, Nat.add_zero, Nat.mod_eq_of_lt hs]
        · rw [hcons hc', List.dropLast_cons_of_ne_nil (pressTrace_ne_nil _ _ hc'),
            count_true_cons_true]
          have harith : ((secs + 5) % 60
                + 5 * ((pressTrace (updateButtons b inp.1 inp.2) c').dropLast.count true)) % 60
              = (secs + 5 * ((pressTrace (updateButtons b inp.1 inp.2) c').dropLast.count true
                    + 1)) % 60 := by
            omega
          rw [harith]
      · rw [if_neg hp] at h
        dsimp only at h
        obtain ⟨c', hc, hnil, hcons, -⟩ := editSeconds_spec tl mins secs _ _ _ _ _
          eT2 secs2 b2 d2 pD2 rest2 hs h
        refine ⟨inp :: c', by rw [hc]; rfl, fun hq => absurd hq (by simp), fun _ => ?_,
          fun _ => by simp⟩
        rw [pressTrace_cons, decide_eq_false hp]
        by_cases hc' : c' = []
        · subst hc'
          rw [hnil rfl]
          simp only [pressTrace, buttonsChain, List.map_nil, List.dropLast_single,
            List.count_nil, Nat.mul_zero, Nat.add_zero, Nat.mod_eq_of_lt hs]
        · rw [hcons hc', List.dropLast_cons_of_ne_nil (pressTrace_ne_nil _ _ hc'),
            count_true_cons_false]

/-- Claim C5 counterexample: entering Time-Setup with duration 0 and a
trace in which the final sample of the seconds phase presses both
buttons at once (one Start press edge in the seconds phase, so j = 1,
and no press in the minutes phase, so k = 0), the persisted value is 0
while the claimed formula ((d/60 + k) mod 10)*60 + ((d%60 + 5*j) mod 60)
gives 5: the Start press arriving on the committing Mode-edge iteration
is applied to the seconds variable only after the global duration was
derived, and is lost. -/
theorem claim5_counterexample :
    (timeSetup 0 ⟨2, 2, 0, 0, 0⟩ ⟨0, 0⟩ 0 ⟨0⟩
        [(5, 3), (10, 1), (15, 3), (20, 0), (25, 3)]).map
        (fun r => r.2.2.2.2.1.word0) = some 0
      ∧ (pressTrace ⟨2, 2, 0, 0, 10⟩ [(15, 3), (20, 0)]).count true = 1
      ∧ (((0 : Nat) / 60 + 0) % 10) * 60 + (((0 : Nat) % 60 + 5 * 1) % 60) = 5
      ∧ (0 : Nat) ≠ 5 :=
  ⟨by decide, by decide, by decide, by decide⟩

/-- Claim C5, amended: for every duration d in [0, 599], Time-Setup
splits it into minutes d/60 and seconds d%60, and committing the two
edit phases persists ((d/60 + k) mod 10)*60 + ((d%60 + 5*j) mod 60),
where k counts the Start press edges observed during the minutes phase
and j counts the Start press edges observed during the seconds phase
excluding one arriving on the committing (Mode-edge) iteration itself;
in particular with no Start presses the persisted value equals d. -/
theorem claim5_timeSetup_roundtrip (dur : Nat) (hdur : dur ≤ 599) (b : Buttons)
    (dsp : Disp) (pD : Nat) (inputs : List (Nat × Nat)) (eT1 mins1 : Nat) (b1 : Buttons)
    (d1 : Disp) (pD1 : Nat) (rest1 : List (Nat × Nat)) (eT2 secs2 : Nat) (b2 : Buttons)
    (d2 : Disp) (pD2 : Nat) (rest2 : List (Nat × Nat)) (e : Eeprom)
    (h1 : editMinutes (dur / 60 % 256) 512 dur b dsp pD inputs
        = some (eT1, mins1, b1, d1, pD1, rest1))
    (h2 : editSeconds mins1 ((dur - dur / 60 % 256 * 60) % 256) 0 eT1
        { b1 with buttonPressed := 0 } d1 pD1 rest1
        = some (eT2, secs2, b2, d2, pD2, rest2)) :
    ∃ c1 c2, inputs = c1 ++ rest1 ∧ rest1 = c2 ++ rest2 ∧
      (writeConfig e eT2).word0
        = ((dur / 60 + (pressTrace b c1).count true) % 10) * 60
            + ((dur % 60
                + 5 * ((pressTrace { b1 with buttonPressed := 0 } c2).dropLast.count true))
              % 60) := by
  have hmins : dur / 60 % 256 = dur / 60 := Nat.mod_eq_of_lt (by omega)
  have hsecs : (dur - dur / 60 % 256 * 60) % 256 = dur % 60 := by
    rw [hmins]
    omega
  rw [hmins] at h1
  rw [hsecs] at h2
  obtain ⟨c1, hc1, hm1⟩ := editMinutes_spec inputs (dur / 60) _ _ _ _ _
    eT1 mins1 b1 d1 pD1 rest1 (by omega) h1
  obtain ⟨c2, hc2, hnil, hcons, hne⟩ := editSeconds_spec rest1 mins1 (dur % 60) _ _ _ _ _
    eT2 secs2 b2 d2 pD2 rest2 (by omega) h2
  have hc2ne : c2 ≠ [] := hne (Nat.zero_and _)
  have he2 := hcons hc2ne
  rw [hm1] at he2
  refine ⟨c1, c2, hc1, hc2, ?_⟩
  show eT2 % 65536 = _
  rw [he2]
  omega

theorem claim5_witness :
    ∃ c1 c2, ([(5, 1), (10, 3), (15, 1), (20, 3)] : List (Nat × Nat))
        = c1 ++ [(10, 3), (15, 1), (20, 3)]
      ∧ ([(10, 3), (15, 1), (20, 3)] : List (Nat × Nat)) = c2 ++ [(20, 3)]
      ∧ (writeConfig ⟨0⟩ 125).word0
          = ((125 / 60 + (pressTrace ⟨0, 0, 0, 0, 0⟩ c1).count true) % 10) * 60
              + ((125 % 60 + 5 * ((pressTrace { (⟨2, 2, 2, 0, 5⟩ : Buttons) with
                    buttonPressed := 0 } c2).dropLast.count true)) % 60) :=
  claim5_timeSetup_roundtrip 125 (by decide) ⟨0, 0, 0, 0, 0⟩ ⟨0, 0⟩ 0
    [(5, 1), (10, 3), (15, 1), (20, 3)] 120 2 ⟨2, 2, 2, 0, 5⟩ ⟨1, 68⟩ 0
    [(10, 3), (15, 1), (20, 3)] 125 5 ⟨2, 2, 2, 0, 15⟩ ⟨0, 81⟩ 1 [(20, 3)] ⟨0⟩
    (by rfl) (by rfl)

theorem claim6_witness :
    ((chainAt ⟨0, 0, 0, 0, 0⟩ [(5, 2), (12, 3)] 0).buttonPressed ≠ 0
        ∨ (chainAt ⟨0, 0, 0, 0, 0⟩ [(5, 2), (12, 3)] 0).buttonReleased ≠ 0
        ↔ chainChanged ⟨0, 0, 0, 0, 0⟩ [(5, 2), (12, 3)] 0)
      ∧ ((5 : Nat) + 5 ≤ 12) :=
  have h := claim6_button_invariants ⟨0, 0, 0, 0, 0⟩ [(5, 2), (12, 3)] (by decide) (by decide)
    (by decide) (by simp [timesMono])
  ⟨h.2.1 0 (by decide),
    by
      have := h.2.2 0 1 (by decide) (by decide) (by decide) (by decide)
      simpa using this⟩

end UVBox
